import Mathlib

/-!
# GridZen game engine: shallow embedding

Shallow embedding of the game engine in `src/App.js` (React Native component
`GridZenGame`).  Pure functions of the source are translated directly; the
React component state (`useState` hooks) becomes the structure `GameState`,
and each event handler becomes a function `GameState → GameState`.

React state-update semantics are modelled faithfully: inside one event
handler every read of a state variable sees the value of the current render
(the closure), while `setX` calls are queued and applied when the handler
returns.  In particular `handleWin`, called synchronously from
`handleTilePress` after `setMoves(moves + 1)`, still reads the *old* value of
`moves` (and the current `timeLeft`) when building the recorded score.

Randomness (`Math.random`) is modelled by passing the random outcome as an
explicit argument: the comparator-random `Array.prototype.sort` used for the
shuffle always returns some permutation of its input, so the shuffled number
list is a parameter constrained by a `List.Perm` hypothesis; the random draws
of the color generator are passed as a list of rationals in `[0, 1)`.
Persistence (`AsyncStorage`), sounds, alerts and the `date` field of a score
(wall-clock time) are outside the model.
-/

namespace GridZen

/-- Model of one `hsl(h, s%, l%)` color string pushed by
`generateDistinctColors`: the three numeric components, as rationals
(JS floating point modelled by exact rational arithmetic). -/
structure HSL where
  hue : ℚ
  saturation : ℚ
  lightness : ℚ
  deriving DecidableEq, Repr

abbrev Color := HSL

def defaultColor : Color := ⟨0, 0, 0⟩

/-- A grid cell `{ number, color }` as built by `initializeGrid`. -/
structure Tile where
  number : Nat
  color : Color
  deriving DecidableEq, Repr

def defaultTile : Tile := ⟨0, defaultColor⟩

/-- The `gameState` string state variable: one of
`splash | menu | playing | won | gameOver`. -/
inductive Phase
  | splash
  | menu
  | playing
  | won
  | gameOver
  deriving DecidableEq, Repr

/-- A high-score entry as built in `handleWin`
(`{ name, moves, timeRemaining, date }`; the `date` field is wall-clock
time and is outside the model). -/
structure Score where
  name : String
  moves : Nat
  timeRemaining : Nat
  deriving DecidableEq, Repr

/-- The 2-D tile array held in the `grid` and `targetGrid` state. -/
abbrev Grid := List (List Tile)

/-- The `highScores` state: a JS object mapping size keys to score lists;
an absent key reads as the empty list (the code materialises `[]` for a
missing key before pushing). -/
abbrev Ledger := String → List Score

def emptyLedger : Ledger := fun _ => []

/-- The `useState` variables of the `GridZenGame` component that the engine
reads or writes (rendering-only state is omitted). -/
structure GameState where
  gameState : Phase
  gridSize : Nat
  grid : Grid
  targetGrid : Grid
  selectedTile : Option (Nat × Nat)
  moves : Nat
  timeLeft : Nat
  playerName : String
  highScores : Ledger

/-- JS `%` on the nonnegative reals that arise in the hue computation
(`x % n = x - n * floor(x / n)` for `x ≥ 0`, `n > 0`). -/
def qmod (x n : ℚ) : ℚ := x - n * ⌊x / n⌋

/-- Circular distance between two hue angles, measured on the 360° wheel. -/
def circDist (a b : ℚ) : ℚ := min (qmod (a - b) 360) (qmod (b - a) 360)

/-- One color pushed by the loop body of `generateDistinctColors`:
`hue = (i * hueStep + Math.random() * 30) % 360`,
`saturation = 70 + Math.random() * 30`, `lightness = 45 + Math.random() * 20`,
where `hueStep = 360 / count` and `r` packs the three `Math.random()` draws
of iteration `i`. -/
def mkColor (count i : Nat) (r : ℚ × ℚ × ℚ) : Color :=
  ⟨qmod ((i : ℚ) * (360 / (count : ℚ)) + r.1 * 30) 360,
   70 + r.2.1 * 30,
   45 + r.2.2 * 20⟩

/-- The color list built by the `for` loop of `generateDistinctColors`,
before the final comparator-random `sort` permutes it; `rands` is the list
of random draws, one triple per iteration. -/
def preShuffleColors (count : Nat) (rands : List (ℚ × ℚ × ℚ)) : List Color :=
  (List.range count).map fun i => mkColor count i (rands.getD i (0, 0, 0))

/-- Model of JS `String.prototype.trim`: strips leading and trailing
whitespace characters. -/
def jsTrim (s : String) : String :=
  ⟨((s.data.dropWhile Char.isWhitespace).reverse.dropWhile
      Char.isWhitespace).reverse⟩

/-- The `timeLimits` lookup object of `getTimeLimit`; an unsupported size
reads as `undefined`, modelled by `none`. -/
def getTimeLimit (size : Nat) : Option Nat :=
  if size = 3 then some 30
  else if size = 4 then some 60
  else if size = 5 then some 90
  else if size = 6 then some 120
  else none

/-- Read of `g[i][j]` (in-range in every reachable call of the source;
out-of-range reads are given a default so the function is total). -/
def getCell (g : Grid) (i j : Nat) : Tile := (g.getD i []).getD j defaultTile

/-- Write of `g[i][j] = t` (a `List.set`-based functional update; JS mutates
the row array in place, which is observationally the same for the
post-event state). -/
def setCell (g : Grid) (i j : Nat) (t : Tile) : Grid :=
  g.set i ((g.getD i []).set j t)

/-- The swap body of `handleTilePress`:
`temp = newGrid[row][col]; newGrid[row][col] = newGrid[selRow][selCol];
newGrid[selRow][selCol] = temp`, translated as the same sequence of reads
and writes. -/
def swapCells (g : Grid) (row col selRow selCol : Nat) : Grid :=
  let temp := getCell g row col
  let g1 := setCell g row col (getCell g selRow selCol)
  setCell g1 selRow selCol temp

/-- Adjacency test of `handleTilePress`:
`(Math.abs(row - selRow) === 1 && col === selCol) ||
 (Math.abs(col - selCol) === 1 && row === selRow)`. -/
def isAdjacent (row col selRow selCol : Nat) : Bool :=
  (((row : Int) - (selRow : Int)).natAbs == 1 && col == selCol) ||
  (((col : Int) - (selCol : Int)).natAbs == 1 && row == selRow)

/-- The `checkWin` scan: a row-major loop comparing each cell's number with
the running counter `expectedNumber`, whose value at cell `(i, j)` is
`i * gridSize + j + 1`. -/
def checkWin (gridSize : Nat) (g : Grid) : Bool :=
  (List.range gridSize).all fun i =>
    (List.range gridSize).all fun j =>
      (getCell g i j).number == i * gridSize + j + 1

/-- Size key string built in `handleWin`: the template
literal interpolating the grid size twice around a letter x. -/
def scoreKey (n : Nat) : String := toString n ++ "x" ++ toString n

/-- Stable ascending insertion into a score list, placing `x` before the
first entry with at least as many moves (every entry of the list follows
`x` in insertion order, so `x` goes before entries tied with it); models
one step of the stable JS `sort((a, b) => a.moves - b.moves)`. -/
def insertScore (x : Score) : List Score → List Score
  | [] => [x]
  | y :: ys => if x.moves ≤ y.moves then x :: y :: ys else y :: insertScore x ys

/-- Stable ascending sort by `moves`: the model of the JS
`sort((a, b) => a.moves - b.moves)` (stable per the ECMAScript spec). -/
def sortScores : List Score → List Score
  | [] => []
  | x :: xs => insertScore x (sortScores xs)

/-- The ledger-list update of `handleWin`: push the new score, sort
ascending by moves, `slice(0, 5)`. -/
def updateScores (prev : List Score) (result : Score) : List Score :=
  (sortScores (prev ++ [result])).take 5

/-- The `highScores` update of `handleWin`: create the key's list if absent
(the function model already reads an absent key as `[]`), then apply
`updateScores` at that key. -/
def recordWin (ledger : Ledger) (key : String) (result : Score) : Ledger :=
  fun k => if k = key then updateScores (ledger key) result else ledger k

/-- The `handleWin` handler: sets `gameState` to won and updates the high
scores with `{ name: playerName, moves: moves, timeRemaining: timeLeft }`.
All three reads see the values of the render closure in which the handler
runs (so `moves` is the value *before* the `setMoves(moves + 1)` queued by
`handleTilePress`).  Timer teardown, the victory sound and the alert are
outside the model. -/
def handleWin (s : GameState) : GameState :=
  let newScore : Score := ⟨s.playerName, s.moves, s.timeLeft⟩
  { s with
    gameState := Phase.won
    highScores := recordWin s.highScores (scoreKey s.gridSize) newScore }

/-- The `handleTilePress(row, col)` handler, branch for branch:
ignore outside the playing phase; first tap selects; tapping the selected
cell deselects; an orthogonally adjacent tap swaps, increments the move
counter, clears the selection and evaluates the win condition; any other
tap moves the selection.  In the winning branch `handleWin` runs in the
same render closure, so its score is built from the pre-swap `moves` and
the current `timeLeft`, while the queued `setGrid`, `setMoves` and
`setSelectedTile` updates still apply to the final state. -/
def handleTilePress (row col : Nat) (s : GameState) : GameState :=
  if s.gameState ≠ Phase.playing then s
  else
    match s.selectedTile with
    | none => { s with selectedTile := some (row, col) }
    | some (selRow, selCol) =>
      if row = selRow ∧ col = selCol then
        { s with selectedTile := none }
      else if isAdjacent row col selRow selCol then
        let newGrid := swapCells s.grid row col selRow selCol
        if checkWin s.gridSize newGrid then
          { handleWin s with
            grid := newGrid
            moves := s.moves + 1
            selectedTile := none }
        else
          { s with
            grid := newGrid
            moves := s.moves + 1
            selectedTile := none }
      else
        { s with selectedTile := some (row, col) }

/-- The `handleGameOver` handler: sets `gameState` to gameOver (timer
teardown, sound and alert are outside the model). -/
def handleGameOver (s : GameState) : GameState :=
  { s with gameState := Phase.gameOver }

/-- The timer `useEffect` body re-run after a state change: when the phase
is still playing and `timeLeft` has reached 0 it calls `handleGameOver`;
otherwise (it only schedules a future timeout, or nothing) the state is
untouched. -/
def timerEffect (s : GameState) : GameState :=
  if s.gameState = Phase.playing ∧ s.timeLeft = 0 then handleGameOver s else s

/-- One clock tick: the `setTimeout` scheduled by the timer effect fires.
A timeout is only ever scheduled when the phase is playing and
`timeLeft > 0` (and is cancelled by the effect cleanup on any other state),
so in every other state a tick is a no-op.  Firing runs
`setTimeLeft(timeLeft - 1)` and then the effect re-runs on the new state. -/
def tick (s : GameState) : GameState :=
  if s.gameState = Phase.playing ∧ 0 < s.timeLeft then
    timerEffect { s with timeLeft := s.timeLeft - 1 }
  else s

/-- The target grid built by `initializeGrid`:
cell `(i, j)` gets `number = i * gridSize + j + 1` and
`color = colors[i * gridSize + j]`. -/
def buildTargetGrid (gridSize : Nat) (colors : List Color) : Grid :=
  (List.range gridSize).map fun i =>
    (List.range gridSize).map fun j =>
      ⟨i * gridSize + j + 1, colors.getD (i * gridSize + j) defaultColor⟩

/-- The shuffled grid built by `initializeGrid`: cell `(i, j)` gets
`number = shuffled[i * gridSize + j]` and `color = colors[number - 1]`
(the color bound to the number in the target grid).  `shuffled` is the
outcome of the comparator-random sort of `[1, ..., gridSize²]`. -/
def buildShuffledGrid (gridSize : Nat) (shuffled : List Nat) (colors : List Color) : Grid :=
  (List.range gridSize).map fun i =>
    (List.range gridSize).map fun j =>
      let n := shuffled.getD (i * gridSize + j) 0
      ⟨n, colors.getD (n - 1) defaultColor⟩

/-- The `startGame` handler.  An all-whitespace or empty `playerName` is
rejected: the alert is modelled by the `Bool` component (`true` = the
validation signal fired) and the state is returned unchanged.  Otherwise
the phase becomes playing, the move counter and selection reset, the clock
is set to the size's limit and `initializeGrid` rebuilds both grids from
the shuffle outcome `shuffled` and the generated `colors`.  (For the four
supported sizes `getTimeLimit` is always `some`; the `getD 0` default
stands in for the JS `undefined` of an unsupported size.) -/
def startGame (shuffled : List Nat) (colors : List Color) (s : GameState) :
    GameState × Bool :=
  if jsTrim s.playerName = "" then (s, true)
  else
    ({ s with
        gameState := Phase.playing
        moves := 0
        timeLeft := (getTimeLimit s.gridSize).getD 0
        selectedTile := none
        targetGrid := buildTargetGrid s.gridSize colors
        grid := buildShuffledGrid s.gridSize shuffled colors }, false)

/-- Row-major list of the numbers on a grid. -/
def numbersOf (g : Grid) : List Nat := (g.map (List.map Tile.number)).flatten

/-- A grid has the shape of a `size × size` matrix. -/
def dims (g : Grid) (n : Nat) : Prop := g.length = n ∧ ∀ r ∈ g, r.length = n

/-- Specification-side reading of the win condition (section 4.3a of the
spec): scanning the grid row-major, the Nth tile visited has
`number = N` for all N from 1 to size². -/
def rowMajorAscending (n : Nat) (g : Grid) : Prop :=
  ∀ N, 1 ≤ N → N ≤ n * n → (g.flatten.getD (N - 1) defaultTile).number = N

/-! ## Concrete example data -/

/-- Tile with a fixed placeholder color, for concrete example grids
(the engine's control flow never reads colors). -/
def mkTile (k : Nat) : Tile := ⟨k, defaultColor⟩

/-- The solved 3×3 grid (numbers 1..9 row-major). -/
def solvedGrid3 : Grid :=
  [[mkTile 1, mkTile 2, mkTile 3],
   [mkTile 4, mkTile 5, mkTile 6],
   [mkTile 7, mkTile 8, mkTile 9]]

/-- A 3×3 grid one adjacent swap away from solved (first two tiles
exchanged). -/
def nearSolvedGrid3 : Grid :=
  [[mkTile 2, mkTile 1, mkTile 3],
   [mkTile 4, mkTile 5, mkTile 6],
   [mkTile 7, mkTile 8, mkTile 9]]

/-- A neutral base state for building concrete scenarios. -/
def baseState : GameState :=
  { gameState := Phase.menu
    gridSize := 3
    grid := []
    targetGrid := []
    selectedTile := none
    moves := 0
    timeLeft := 0
    playerName := ""
    highScores := emptyLedger }

/-- Mid-session 3×3 state one winning swap away from solved, with tile
(0,0) already selected: player "Ava", no moves yet, 29 seconds left. -/
def c1State : GameState :=
  { baseState with
    gameState := Phase.playing
    grid := nearSolvedGrid3
    selectedTile := some (0, 0)
    timeLeft := 29
    playerName := "Ava" }

/-- Mid-session 3×3 state one winning swap away from solved, with no
selection yet. -/
def c10State : GameState :=
  { baseState with
    gameState := Phase.playing
    grid := nearSolvedGrid3
    selectedTile := none
    timeLeft := 29
    playerName := "Ava" }

/-! ## Helper lemmas on lists and grids -/

theorem getD_map_range {α : Type} (f : Nat → α) {n i : Nat} (hi : i < n) (d : α) :
    ((List.range n).map f).getD i d = f i := by
  rw [List.getD_eq_getElem _ _ (by simpa using hi)]
  simp

theorem getCell_buildTargetGrid {n i j : Nat} (colors : List Color)
    (hi : i < n) (hj : j < n) :
    getCell (buildTargetGrid n colors) i j =
      ⟨i * n + j + 1, colors.getD (i * n + j) defaultColor⟩ := by
  unfold getCell buildTargetGrid
  rw [getD_map_range _ hi, getD_map_range _ hj]

theorem getCell_buildShuffledGrid {n i j : Nat} (shuffled : List Nat)
    (colors : List Color) (hi : i < n) (hj : j < n) :
    getCell (buildShuffledGrid n shuffled colors) i j =
      ⟨shuffled.getD (i * n + j) 0,
       colors.getD (shuffled.getD (i * n + j) 0 - 1) defaultColor⟩ := by
  unfold getCell buildShuffledGrid
  rw [getD_map_range _ hi, getD_map_range _ hj]

theorem dims_buildTargetGrid (n : Nat) (colors : List Color) :
    dims (buildTargetGrid n colors) n := by
  constructor
  · simp [buildTargetGrid]
  · intro r hr
    simp only [buildTargetGrid, List.mem_map] at hr
    obtain ⟨i, _, rfl⟩ := hr
    simp

theorem dims_buildShuffledGrid (n : Nat) (shuffled : List Nat) (colors : List Color) :
    dims (buildShuffledGrid n shuffled colors) n := by
  constructor
  · simp [buildShuffledGrid]
  · intro r hr
    simp only [buildShuffledGrid, List.mem_map] at hr
    obtain ⟨i, _, rfl⟩ := hr
    simp

theorem getD_flatten {α : Type} (L : List (List α)) (n : Nat)
    (hrows : ∀ r ∈ L, r.length = n) :
    ∀ i j : Nat, i < L.length → j < n → ∀ d : α,
      L.flatten.getD (i * n + j) d = (L.getD i []).getD j d := by
  induction L with
  | nil => intro i j hi; simp at hi
  | cons r L ih =>
    intro i j hi hj d
    have hr : r.length = n := hrows r (List.mem_cons_self r L)
    cases i with
    | zero =>
      simp only [List.flatten_cons, Nat.zero_mul, Nat.zero_add,
        List.getD_cons_zero]
      rw [List.getD_append _ _ _ _ (by omega)]
    | succ i =>
      have harith : (i + 1) * n + j = r.length + (i * n + j) := by
        rw [hr]; ring
      simp only [List.flatten_cons]
      rw [harith, List.getD_append_right _ _ _ _ (by omega),
        Nat.add_sub_cancel_left]
      exact ih (fun s hs => hrows s (List.mem_cons_of_mem r hs)) i j
        (by simpa using hi) hj d

theorem flatten_map_range {α : Type} (f : Nat → α) (m n : Nat) :
    ((List.range m).map fun i => (List.range n).map fun j => f (i * n + j)).flatten
      = (List.range (m * n)).map f := by
  induction m with
  | zero => simp
  | succ m ih =>
    rw [List.range_succ, List.map_append, List.flatten_append, ih,
      Nat.succ_mul, List.range_add, List.map_append]
    simp [List.map_map, Function.comp_def, Nat.add_comm]

theorem map_getD_range {α : Type} (l : List α) (d : α) :
    (List.range l.length).map (fun k => l.getD k d) = l := by
  apply List.ext_getElem
  · simp
  · intro k h1 h2
    have hk : k < l.length := by simpa using h2
    simp only [List.getElem_map, List.getElem_range]
    exact List.getD_eq_getElem _ _ hk

theorem numbersOf_buildShuffledGrid {n : Nat} (shuffled : List Nat)
    (colors : List Color) (hlen : shuffled.length = n * n) :
    numbersOf (buildShuffledGrid n shuffled colors) = shuffled := by
  unfold numbersOf buildShuffledGrid
  rw [List.map_map]
  have hcomp :
      ((List.map Tile.number ∘ fun i => (List.range n).map fun j =>
          Tile.mk (shuffled.getD (i * n + j) 0)
            (colors.getD (shuffled.getD (i * n + j) 0 - 1) defaultColor))
        : Nat → List Nat)
      = fun i => (List.range n).map fun j => shuffled.getD (i * n + j) 0 := by
    funext i
    simp [Function.comp_def, List.map_map]
  rw [hcomp, flatten_map_range (fun k => shuffled.getD k 0) n n, ← hlen,
    map_getD_range]

theorem flatIdx_lt {row col n : Nat} (h1 : row < n) (h2 : col < n) :
    row * n + col < n * n := by
  have hstep : (row + 1) * n ≤ n * n := Nat.mul_le_mul_right n h1
  calc row * n + col < row * n + n := by omega
    _ = (row + 1) * n := by ring
    _ ≤ n * n := hstep

theorem flatIdx_inj {n row col selRow selCol : Nat} (h2 : col < n) (h4 : selCol < n)
    (h : row * n + col = selRow * n + selCol) : row = selRow ∧ col = selCol := by
  have key : row = selRow := by
    rcases Nat.lt_trichotomy row selRow with hlt | heq | hgt
    · exfalso
      have hm : (row + 1) * n ≤ selRow * n := Nat.mul_le_mul_right n hlt
      have hm2 : row * n + n ≤ selRow * n := by
        calc row * n + n = (row + 1) * n := by ring
          _ ≤ selRow * n := hm
      omega
    · exact heq
    · exfalso
      have hm : (selRow + 1) * n ≤ row * n := Nat.mul_le_mul_right n hgt
      have hm2 : selRow * n + n ≤ row * n := by
        calc selRow * n + n = (selRow + 1) * n := by ring
          _ ≤ row * n := hm
      omega
  refine ⟨key, ?_⟩
  subst key
  omega

theorem getD_set_self {α : Type} (l : List α) {i : Nat} (h : i < l.length)
    (a d : α) : (l.set i a).getD i d = a := by
  rw [List.getD_eq_getElem _ _ (by simpa using h)]
  exact List.getElem_set_self (by simpa using h)

theorem getD_set_ne {α : Type} (l : List α) {i i' : Nat} (h : i ≠ i') (a d : α) :
    (l.set i a).getD i' d = l.getD i' d := by
  simp [List.getD_eq_getElem?_getD, List.getElem?_set_ne h]

theorem length_setCell (g : Grid) (i j : Nat) (t : Tile) :
    (setCell g i j t).length = g.length := by
  simp [setCell]

theorem dims_setCell {g : Grid} {n : Nat} (hd : dims g n) (i j : Nat) (t : Tile) :
    dims (setCell g i j t) n := by
  obtain ⟨hlen, hrows⟩ := hd
  by_cases hi : i < g.length
  · refine ⟨by simp [setCell, hlen], ?_⟩
    intro r hr
    unfold setCell at hr
    rcases List.mem_or_eq_of_mem_set hr with h | h
    · exact hrows r h
    · subst h
      rw [List.length_set, List.getD_eq_getElem _ _ hi]
      exact hrows _ (List.getElem_mem hi)
  · unfold setCell
    rw [List.set_eq_of_length_le (by omega)]
    exact ⟨hlen, hrows⟩

theorem getCell_setCell_self {g : Grid} {n : Nat} (hd : dims g n) {i j : Nat}
    (hi : i < n) (hj : j < n) (t : Tile) :
    getCell (setCell g i j t) i j = t := by
  obtain ⟨hlen, hrows⟩ := hd
  have hig : i < g.length := by omega
  have hrlen : (g.getD i []).length = n := by
    rw [List.getD_eq_getElem _ _ hig]
    exact hrows _ (List.getElem_mem hig)
  unfold getCell setCell
  rw [getD_set_self _ hig, getD_set_self _ (by omega)]

theorem getCell_setCell_ne {g : Grid} {i j i' j' : Nat} (t : Tile)
    (h : i ≠ i' ∨ j ≠ j') :
    getCell (setCell g i j t) i' j' = getCell g i' j' := by
  unfold getCell setCell
  by_cases hii : i = i'
  · subst hii
    have hjj : j ≠ j' := by tauto
    by_cases hig : i < g.length
    · rw [getD_set_self _ hig, getD_set_ne _ hjj]
    · rw [List.set_eq_of_length_le (by omega)]
  · rw [getD_set_ne _ hii]

theorem dims_swapCells {g : Grid} {n : Nat} (hd : dims g n)
    (row col selRow selCol : Nat) :
    dims (swapCells g row col selRow selCol) n :=
  dims_setCell (dims_setCell hd row col _) selRow selCol _

theorem getCell_swapCells_fst {g : Grid} {n : Nat} (hd : dims g n)
    {row col selRow selCol : Nat} (h1 : row < n) (h2 : col < n)
    (hne : row ≠ selRow ∨ col ≠ selCol) :
    getCell (swapCells g row col selRow selCol) row col =
      getCell g selRow selCol := by
  unfold swapCells
  rw [getCell_setCell_ne _ (by tauto), getCell_setCell_self hd h1 h2]

theorem getCell_swapCells_snd {g : Grid} {n : Nat} (hd : dims g n)
    {row col selRow selCol : Nat} (h3 : selRow < n) (h4 : selCol < n) :
    getCell (swapCells g row col selRow selCol) selRow selCol =
      getCell g row col := by
  unfold swapCells
  rw [getCell_setCell_self (dims_setCell hd row col _) h3 h4]

theorem getCell_swapCells_other {g : Grid} {row col selRow selCol i j : Nat}
    (hij1 : i ≠ row ∨ j ≠ col) (hij2 : i ≠ selRow ∨ j ≠ selCol) :
    getCell (swapCells g row col selRow selCol) i j = getCell g i j := by
  unfold swapCells
  rw [getCell_setCell_ne _ (by tauto), getCell_setCell_ne _ (by tauto)]

theorem grid_ext {g₁ g₂ : Grid} {n : Nat} (h₁ : dims g₁ n) (h₂ : dims g₂ n)
    (h : ∀ i < n, ∀ j < n, getCell g₁ i j = getCell g₂ i j) : g₁ = g₂ := by
  obtain ⟨hl₁, hr₁⟩ := h₁
  obtain ⟨hl₂, hr₂⟩ := h₂
  apply List.ext_getElem (by rw [hl₁, hl₂])
  intro i hi1 hi2
  have hin : i < n := by omega
  have hrow₁ : g₁[i].length = n := hr₁ _ (List.getElem_mem hi1)
  have hrow₂ : g₂[i].length = n := hr₂ _ (List.getElem_mem hi2)
  apply List.ext_getElem (by rw [hrow₁, hrow₂])
  intro j hj1 hj2
  have hjn : j < n := by omega
  have hgc := h i hin j hjn
  unfold getCell at hgc
  rwa [List.getD_eq_getElem _ _ hi1, List.getD_eq_getElem _ _ hj1,
    List.getD_eq_getElem _ _ hi2, List.getD_eq_getElem _ _ hj2] at hgc

theorem count_set_add (l : List Nat) (i : Nat) (a : Nat) (h : i < l.length)
    (x : Nat) :
    (l.set i a).count x + (if l[i] = x then 1 else 0)
      = l.count x + (if a = x then 1 else 0) := by
  induction l generalizing i with
  | nil => simp at h
  | cons y ys ih =>
    cases i with
    | zero =>
      simp only [List.set_cons_zero, List.count_cons, List.getElem_cons_zero,
        beq_iff_eq]
      split_ifs <;> omega
    | succ i =>
      have hlen : i < ys.length := by simpa using h
      have hih := ih i hlen
      simp only [List.set_cons_succ, List.count_cons, List.getElem_cons_succ,
        beq_iff_eq]
      split_ifs at hih ⊢ <;> omega

theorem swap_set_perm (l : List Nat) (p q : Nat) (hp : p < l.length)
    (hq : q < l.length) :
    ((l.set p (l.getD q 0)).set q (l.getD p 0)).Perm l := by
  rw [List.perm_iff_count]
  intro x
  have hq' : q < (l.set p (l.getD q 0)).length := by simpa using hq
  have h1 := count_set_add l p (l.getD q 0) hp x
  have h2 := count_set_add (l.set p (l.getD q 0)) q (l.getD p 0) hq' x
  have hgq : l.getD q 0 = l[q] := List.getD_eq_getElem _ _ hq
  have hgp : l.getD p 0 = l[p] := List.getD_eq_getElem _ _ hp
  by_cases hpq : p = q
  · subst hpq
    have hset : (l.set p (l.getD p 0))[p] = l.getD p 0 :=
      List.getElem_set_self (by simpa using hp)
    rw [hset] at h2
    simp only [hgp] at h1 h2 ⊢
    split_ifs at h1 h2 <;> omega
  · have hset : (l.set p (l.getD q 0))[q] = l[q] := by
      rw [List.getElem_set_ne hpq]
    rw [hset] at h2
    simp only [hgp, hgq] at h1 h2 ⊢
    split_ifs at h1 h2 <;> omega

theorem flatten_set_inner {α : Type} (L : List (List α)) (n : Nat)
    (hrows : ∀ r ∈ L, r.length = n) :
    ∀ i j : Nat, i < L.length → j < n → ∀ a : α,
      (L.set i ((L.getD i []).set j a)).flatten = L.flatten.set (i * n + j) a := by
  induction L with
  | nil => intro i j hi; simp at hi
  | cons r L ih =>
    intro i j hi hj a
    have hr : r.length = n := hrows r (List.mem_cons_self r L)
    cases i with
    | zero =>
      simp only [List.getD_cons_zero, List.set_cons_zero, List.flatten_cons,
        Nat.zero_mul, Nat.zero_add]
      rw [List.set_append_left _ _ (by omega)]
    | succ i =>
      simp only [List.getD_cons_succ, List.set_cons_succ, List.flatten_cons]
      rw [ih (fun s hs => hrows s (List.mem_cons_of_mem r hs)) i j
        (by simpa using hi) hj a]
      have harith : (i + 1) * n + j = r.length + (i * n + j) := by
        rw [hr]; ring
      rw [harith, List.set_append_right _ _ (by omega),
        Nat.add_sub_cancel_left]

theorem length_numbersOf {g : Grid} {n : Nat} (hd : dims g n) :
    (numbersOf g).length = n * n := by
  obtain ⟨hlen, hrows⟩ := hd
  unfold numbersOf
  rw [List.length_flatten, List.map_map]
  have hmap : (g.map (List.length ∘ List.map Tile.number)) = g.map List.length := by
    simp [Function.comp_def]
  rw [hmap]
  have hrep : g.map List.length = List.replicate n n := by
    rw [List.eq_replicate_iff]
    refine ⟨by simp [hlen], ?_⟩
    intro b hb
    simp only [List.mem_map] at hb
    obtain ⟨r, hr, rfl⟩ := hb
    exact hrows r hr
  rw [hrep, List.sum_replicate, smul_eq_mul]

theorem rows_map_number {g : Grid} {n : Nat} (hd : dims g n) :
    ∀ r ∈ g.map (List.map Tile.number), r.length = n := by
  intro r hr
  simp only [List.mem_map] at hr
  obtain ⟨s, hs, rfl⟩ := hr
  simp [hd.2 s hs]

theorem getD_row_map_number {g : Grid} {i : Nat} (hig : i < g.length) :
    (g.map (List.map Tile.number)).getD i [] = (g.getD i []).map Tile.number := by
  rw [List.getD_eq_getElem _ _ (by simpa using hig),
    List.getD_eq_getElem _ _ hig, List.getElem_map]

theorem number_getCell_eq_getD {g : Grid} {n : Nat} (hd : dims g n) {i j : Nat}
    (hi : i < n) (hj : j < n) :
    (getCell g i j).number = (numbersOf g).getD (i * n + j) 0 := by
  have hig : i < g.length := by rw [hd.1]; exact hi
  have hmlen : i < (g.map (List.map Tile.number)).length := by
    rw [List.length_map]; exact hig
  unfold numbersOf getCell
  rw [getD_flatten _ n (rows_map_number hd) i j hmlen hj 0,
    getD_row_map_number hig]
  have h0 : (0 : Nat) = Tile.number defaultTile := rfl
  rw [h0, List.getD_map]

theorem numbersOf_setCell {g : Grid} {n : Nat} (hd : dims g n) {i j : Nat}
    (hi : i < n) (hj : j < n) (t : Tile) :
    numbersOf (setCell g i j t) = (numbersOf g).set (i * n + j) t.number := by
  have hig : i < g.length := by rw [hd.1]; exact hi
  have hmlen : i < (g.map (List.map Tile.number)).length := by
    rw [List.length_map]; exact hig
  unfold numbersOf setCell
  rw [List.map_set, List.map_set, ← getD_row_map_number hig]
  exact flatten_set_inner _ n (rows_map_number hd) i j hmlen hj t.number

theorem numbersOf_swapCells_perm {g : Grid} {n : Nat} (hd : dims g n)
    {row col selRow selCol : Nat} (h1 : row < n) (h2 : col < n)
    (h3 : selRow < n) (h4 : selCol < n) :
    (numbersOf (swapCells g row col selRow selCol)).Perm (numbersOf g) := by
  have hp : row * n + col < (numbersOf g).length := by
    rw [length_numbersOf hd]; exact flatIdx_lt h1 h2
  have hq : selRow * n + selCol < (numbersOf g).length := by
    rw [length_numbersOf hd]; exact flatIdx_lt h3 h4
  unfold swapCells
  rw [numbersOf_setCell (dims_setCell hd row col _) h3 h4,
    numbersOf_setCell hd h1 h2,
    number_getCell_eq_getD hd h3 h4, number_getCell_eq_getD hd h1 h2]
  exact swap_set_perm (numbersOf g) (row * n + col) (selRow * n + selCol) hp hq

theorem checkWin_eq_true_iff {n : Nat} {g : Grid} :
    checkWin n g = true ↔
      ∀ i < n, ∀ j < n, (getCell g i j).number = i * n + j + 1 := by
  unfold checkWin
  simp [List.all_eq_true, List.mem_range]

/-- C2: for every grid of the current size, `checkWin` returns true iff,
scanning the grid row-major, the Nth tile visited has number N for all N
from 1 to size²; in particular the fully ascending 3×3 grid yields true
and a 3×3 grid with one adjacent pair out of order yields false. -/
theorem checkWin_iff_rowMajorAscending {n : Nat} {g : Grid} (hd : dims g n) :
    (checkWin n g = true ↔ rowMajorAscending n g) ∧
    checkWin 3 solvedGrid3 = true ∧
    checkWin 3 nearSolvedGrid3 = false := by
  refine ⟨?_, by decide, by decide⟩
  unfold rowMajorAscending
  rw [checkWin_eq_true_iff]
  constructor
  · intro h N hN1 hN2
    have hn : 0 < n := by
      rcases Nat.eq_zero_or_pos n with rfl | hn
      · omega
      · exact hn
    have hk : N - 1 < n * n := by omega
    have hi : (N - 1) / n < n := Nat.div_lt_of_lt_mul (by omega)
    have hj : (N - 1) % n < n := Nat.mod_lt _ hn
    have hidx : (N - 1) / n * n + (N - 1) % n = N - 1 := by
      rw [Nat.mul_comm]
      exact Nat.div_add_mod (N - 1) n
    have hflat := getD_flatten g n hd.2 ((N - 1) / n) ((N - 1) % n)
      (by rw [hd.1]; exact hi) hj defaultTile
    rw [hidx] at hflat
    rw [hflat]
    have hthis := h _ hi _ hj
    rw [hidx] at hthis
    unfold getCell at hthis
    rw [hthis]
    omega
  · intro h i hi j hj
    have hflat := getD_flatten g n hd.2 i j (by rw [hd.1]; exact hi) hj
      defaultTile
    have hlt : i * n + j < n * n := flatIdx_lt hi hj
    have := h (i * n + j + 1) (by omega) (by omega)
    rw [Nat.add_sub_cancel, hflat] at this
    exact this

/-- Witness for C2 at the concrete solved 3×3 grid. -/
theorem checkWin_iff_rowMajorAscending_witness :
    (checkWin 3 solvedGrid3 = true ↔ rowMajorAscending 3 solvedGrid3) ∧
    checkWin 3 solvedGrid3 = true ∧
    checkWin 3 nearSolvedGrid3 = false :=
  checkWin_iff_rowMajorAscending (g := solvedGrid3) ⟨rfl, by decide⟩

/-- C4: for every grid size and every outcome of the comparator-random
shuffle (any permutation of 1..size²), the initial grid built by
`initializeGrid` carries each number in 1..size² exactly once, and every
swap performed by the move engine preserves the multiset of numbers. -/
theorem grid_numbers_invariant {n : Nat} (shuffled : List Nat)
    (colors : List Color) (hperm : shuffled.Perm (List.range' 1 (n * n))) :
    (numbersOf (buildShuffledGrid n shuffled colors)).Perm
      (List.range' 1 (n * n)) ∧
    ∀ (g : Grid) (row col selRow selCol : Nat), dims g n →
      row < n → col < n → selRow < n → selCol < n →
      (numbersOf (swapCells g row col selRow selCol)).Perm (numbersOf g) := by
  constructor
  · rw [numbersOf_buildShuffledGrid _ _ (hperm.length_eq.trans (by simp))]
    exact hperm
  · intro g row col selRow selCol hd h1 h2 h3 h4
    exact numbersOf_swapCells_perm hd h1 h2 h3 h4

/-- Witness for C4 at a concrete 3×3 shuffle. -/
theorem grid_numbers_invariant_witness :
    (numbersOf (buildShuffledGrid 3 [2, 1, 3, 4, 5, 6, 7, 8, 9] [])).Perm
      (List.range' 1 9) :=
  (grid_numbers_invariant (n := 3) [2, 1, 3, 4, 5, 6, 7, 8, 9] []
    (by decide)).1

/-- C8: in the shuffled grid every tile carries exactly the color bound to
its number in the target grid: the cell holding number m has the color of
the target cell whose number is m, namely `colors[m - 1]`. -/
theorem color_follows_number {n : Nat} (shuffled : List Nat)
    (colors : List Color) (hperm : shuffled.Perm (List.range' 1 (n * n)))
    {i j : Nat} (hi : i < n) (hj : j < n) :
    ∃ ti tj, ti < n ∧ tj < n ∧
      (getCell (buildTargetGrid n colors) ti tj).number
        = (getCell (buildShuffledGrid n shuffled colors) i j).number ∧
      (getCell (buildTargetGrid n colors) ti tj).color
        = (getCell (buildShuffledGrid n shuffled colors) i j).color ∧
      (getCell (buildShuffledGrid n shuffled colors) i j).color
        = colors.getD
            ((getCell (buildShuffledGrid n shuffled colors) i j).number - 1)
            defaultColor := by
  have hn : 0 < n := by omega
  have hlen : shuffled.length = n * n := hperm.length_eq.trans (by simp)
  have hidx : i * n + j < shuffled.length := by
    rw [hlen]; exact flatIdx_lt hi hj
  set m := shuffled.getD (i * n + j) 0 with hm
  have hmem : m ∈ shuffled := by
    rw [hm, List.getD_eq_getElem _ _ hidx]
    exact List.getElem_mem hidx
  have hrange : 1 ≤ m ∧ m ≤ n * n := by
    have := hperm.mem_iff.1 hmem
    rw [List.mem_range'] at this
    obtain ⟨k, hk, he⟩ := this
    omega
  refine ⟨(m - 1) / n, (m - 1) % n, Nat.div_lt_of_lt_mul (by omega),
    Nat.mod_lt _ hn, ?_, ?_, ?_⟩
  · rw [getCell_buildTargetGrid colors (Nat.div_lt_of_lt_mul (by omega))
      (Nat.mod_lt _ hn), getCell_buildShuffledGrid shuffled colors hi hj]
    have : (m - 1) / n * n + (m - 1) % n = m - 1 := by
      rw [Nat.mul_comm]; exact Nat.div_add_mod (m - 1) n
    simp only [← hm, this]
    omega
  · rw [getCell_buildTargetGrid colors (Nat.div_lt_of_lt_mul (by omega))
      (Nat.mod_lt _ hn), getCell_buildShuffledGrid shuffled colors hi hj]
    have : (m - 1) / n * n + (m - 1) % n = m - 1 := by
      rw [Nat.mul_comm]; exact Nat.div_add_mod (m - 1) n
    simp only [← hm, this]
  · rw [getCell_buildShuffledGrid shuffled colors hi hj]

/-- Witness for C8 at a concrete 3×3 shuffle and color list. -/
theorem color_follows_number_witness :
    ∃ ti tj, ti < 3 ∧ tj < 3 ∧
      (getCell (buildTargetGrid 3 (List.replicate 9 defaultColor)) ti tj).number
        = (getCell (buildShuffledGrid 3 [2, 1, 3, 4, 5, 6, 7, 8, 9]
            (List.replicate 9 defaultColor)) 0 0).number ∧
      (getCell (buildTargetGrid 3 (List.replicate 9 defaultColor)) ti tj).color
        = (getCell (buildShuffledGrid 3 [2, 1, 3, 4, 5, 6, 7, 8, 9]
            (List.replicate 9 defaultColor)) 0 0).color ∧
      (getCell (buildShuffledGrid 3 [2, 1, 3, 4, 5, 6, 7, 8, 9]
          (List.replicate 9 defaultColor)) 0 0).color
        = (List.replicate 9 defaultColor).getD
            ((getCell (buildShuffledGrid 3 [2, 1, 3, 4, 5, 6, 7, 8, 9]
                (List.replicate 9 defaultColor)) 0 0).number - 1)
            defaultColor :=
  color_follows_number (n := 3) [2, 1, 3, 4, 5, 6, 7, 8, 9]
    (List.replicate 9 defaultColor) (by decide) (by decide) (by decide)

/-- C3: `handleTilePress` changes the grid and increments the move counter
by exactly 1 precisely when the phase is playing, a selection exists, and
the tapped cell is a different, orthogonally adjacent cell; and in every
other case (first selection, deselection, non-adjacent or diagonal tap,
call outside the playing phase) both the grid and the move counter are
left exactly unchanged. -/
theorem handleTilePress_mutates_iff (s : GameState) (row col : Nat)
    (hd : dims s.grid s.gridSize)
    (hnodup : (numbersOf s.grid).Nodup)
    (hrow : row < s.gridSize) (hcol : col < s.gridSize)
    (hsel : ∀ sr sc, s.selectedTile = some (sr, sc) →
      sr < s.gridSize ∧ sc < s.gridSize) :
    (((handleTilePress row col s).grid ≠ s.grid ∧
      (handleTilePress row col s).moves = s.moves + 1)
    ↔ (s.gameState = Phase.playing ∧ ∃ sr sc,
        s.selectedTile = some (sr, sc) ∧ ¬(row = sr ∧ col = sc) ∧
        isAdjacent row col sr sc = true)) ∧
    (¬(s.gameState = Phase.playing ∧ ∃ sr sc,
        s.selectedTile = some (sr, sc) ∧ ¬(row = sr ∧ col = sc) ∧
        isAdjacent row col sr sc = true) →
      (handleTilePress row col s).grid = s.grid ∧
      (handleTilePress row col s).moves = s.moves) := by
  refine ⟨?_, ?_⟩
  case refine_2 =>
    intro hn
    by_cases hphase : s.gameState = Phase.playing
    · rcases hselv : s.selectedTile with _ | ⟨sr, sc⟩
      · simp only [handleTilePress, hphase, hselv]
        simp
      · by_cases hsame : row = sr ∧ col = sc
        · simp only [handleTilePress, hphase, hselv, ne_eq]
          simp [hsame]
        · by_cases hadj : isAdjacent row col sr sc = true
          · exact absurd ⟨hphase, sr, sc, hselv, hsame, hadj⟩ hn
          · simp only [handleTilePress, hphase, hselv, ne_eq]
            simp [hsame, hadj]
    · simp only [handleTilePress, hphase, ne_eq]
      simp [hphase]
  by_cases hphase : s.gameState = Phase.playing
  · rcases hselv : s.selectedTile with _ | ⟨sr, sc⟩
    · simp only [handleTilePress, hphase, hselv]
      simp
    · obtain ⟨hsr, hsc⟩ := hsel sr sc hselv
      by_cases hsame : row = sr ∧ col = sc
      · simp only [handleTilePress, hphase, hselv, ne_eq]
        simp [hsame]
      · by_cases hadj : isAdjacent row col sr sc = true
        · constructor
          · intro _
            exact ⟨hphase, sr, sc, hselv ▸ rfl, hsame, hadj⟩
          · intro _
            have hne : row ≠ sr ∨ col ≠ sc := by tauto
            have hnum : (getCell s.grid sr sc).number ≠
                (getCell s.grid row col).number := by
              intro heq
              rw [number_getCell_eq_getD hd hsr hsc,
                number_getCell_eq_getD hd hrow hcol] at heq
              have hp : sr * s.gridSize + sc < (numbersOf s.grid).length := by
                rw [length_numbersOf hd]; exact flatIdx_lt hsr hsc
              have hq : row * s.gridSize + col < (numbersOf s.grid).length := by
                rw [length_numbersOf hd]; exact flatIdx_lt hrow hcol
              rw [List.getD_eq_getElem _ _ hp, List.getD_eq_getElem _ _ hq]
                at heq
              have := (hnodup.getElem_inj_iff).1 heq
              obtain ⟨h1, h2⟩ := flatIdx_inj hsc hcol this
              exact hsame ⟨h1.symm, h2.symm⟩
            have hgrid : swapCells s.grid row col sr sc ≠ s.grid := by
              intro heq
              have hfst := getCell_swapCells_fst hd hrow hcol hne
              rw [heq] at hfst
              exact hnum (by rw [← hfst])
            simp only [handleTilePress, hphase, hselv, ne_eq]
            simp only [hsame, if_false, hadj, if_true, ite_not]
            split
            · exact ⟨by simpa using hgrid, rfl⟩
            · exact ⟨by simpa using hgrid, rfl⟩
        · simp only [handleTilePress, hphase, hselv, ne_eq]
          simp [hsame, hadj]
  · simp only [handleTilePress, hphase, ne_eq]
    simp [hphase]

/-- Witness for C3 at the concrete mid-session state. -/
theorem handleTilePress_mutates_iff_witness :
    (((handleTilePress 0 1 c1State).grid ≠ c1State.grid ∧
      (handleTilePress 0 1 c1State).moves = c1State.moves + 1)
    ↔ (c1State.gameState = Phase.playing ∧ ∃ sr sc,
        c1State.selectedTile = some (sr, sc) ∧ ¬(0 = sr ∧ 1 = sc) ∧
        isAdjacent 0 1 sr sc = true)) ∧
    (¬(c1State.gameState = Phase.playing ∧ ∃ sr sc,
        c1State.selectedTile = some (sr, sc) ∧ ¬(0 = sr ∧ 1 = sc) ∧
        isAdjacent 0 1 sr sc = true) →
      (handleTilePress 0 1 c1State).grid = c1State.grid ∧
      (handleTilePress 0 1 c1State).moves = c1State.moves) :=
  handleTilePress_mutates_iff c1State 0 1 ⟨rfl, by decide⟩ (by decide)
    (by decide) (by decide) (fun sr sc h => by
      have h2 : some (0, 0) = some (sr, sc) := h
      injection h2 with h3
      injection h3 with h4 h5
      subst h4
      subst h5
      exact ⟨by decide, by decide⟩)

theorem mem_insertScore {x b : Score} {l : List Score} :
    b ∈ insertScore x l ↔ b = x ∨ b ∈ l := by
  induction l with
  | nil => simp [insertScore]
  | cons y ys ih =>
    rw [insertScore]
    by_cases hxy : x.moves ≤ y.moves
    · rw [if_pos hxy]
      simp [List.mem_cons]
    · rw [if_neg hxy]
      simp only [List.mem_cons, ih]
      tauto

theorem pairwise_insertScore {x : Score} {l : List Score}
    (h : l.Pairwise (fun a b => a.moves ≤ b.moves)) :
    (insertScore x l).Pairwise (fun a b => a.moves ≤ b.moves) := by
  induction l with
  | nil => simp [insertScore]
  | cons y ys ih =>
    rw [insertScore]
    by_cases hxy : x.moves ≤ y.moves
    · rw [if_pos hxy]
      refine List.Pairwise.cons ?_ h
      intro b hb
      rcases List.mem_cons.1 hb with rfl | hb2
      · omega
      · have := (List.pairwise_cons.1 h).1 b hb2
        omega
    · rw [if_neg hxy]
      have hy := (List.pairwise_cons.1 h).1
      have ht := (List.pairwise_cons.1 h).2
      refine List.Pairwise.cons ?_ (ih ht)
      intro b hb
      rcases mem_insertScore.1 hb with rfl | hb2
      · omega
      · exact hy b hb2

theorem pairwise_sortScores (l : List Score) :
    (sortScores l).Pairwise (fun a b => a.moves ≤ b.moves) := by
  induction l with
  | nil => simp [sortScores]
  | cons x xs ih =>
    rw [sortScores]
    exact pairwise_insertScore ih

/-- C5: the stored list after a win is sorted ascending by moves and holds
at most 5 entries; recording 6 wins with moves 10, 3, 7, 1, 9, 5 on one
key stores exactly the move counts 1, 3, 5, 7, 9; ties keep their
insertion order (stable sort). -/
theorem updateScores_sorted_top5 (prev : List Score) (result : Score) :
    (updateScores prev result).Pairwise (fun a b => a.moves ≤ b.moves) ∧
    (updateScores prev result).length ≤ 5 ∧
    (([⟨"a", 10, 0⟩, ⟨"b", 3, 0⟩, ⟨"c", 7, 0⟩, ⟨"d", 1, 0⟩, ⟨"e", 9, 0⟩,
        ⟨"f", 5, 0⟩] : List Score).foldl updateScores []).map Score.moves
      = [1, 3, 5, 7, 9] ∧
    updateScores (updateScores [] ⟨"A", 2, 0⟩) ⟨"B", 2, 0⟩
      = [⟨"A", 2, 0⟩, ⟨"B", 2, 0⟩] := by
  refine ⟨?_, ?_, by decide, by decide⟩
  · exact List.Pairwise.sublist (List.take_sublist 5 _) (pairwise_sortScores _)
  · unfold updateScores
    rw [List.length_take]
    exact Nat.min_le_left _ _

/-- C6: while playing, a tick with time left decrements the clock by
exactly 1; the transition to game over fires exactly when the clock hits
0 and only once (a second tick is a no-op); the clock never decrements
past 0; outside the playing phase a tick changes nothing. -/
theorem tick_clock_behavior (s : GameState) :
    (s.gameState = Phase.playing → 0 < s.timeLeft →
      (tick s).timeLeft = s.timeLeft - 1) ∧
    (s.gameState = Phase.playing → 0 < s.timeLeft →
      ((tick s).gameState = Phase.gameOver ↔ s.timeLeft = 1)) ∧
    (s.gameState = Phase.playing → s.timeLeft = 1 →
      (tick s).gameState = Phase.gameOver ∧ tick (tick s) = tick s) ∧
    (tick s).timeLeft ≤ s.timeLeft ∧
    (s.timeLeft = 0 → (tick s).timeLeft = 0) ∧
    (s.gameState ≠ Phase.playing → tick s = s) := by
  have hfix : ∀ t : GameState, t.gameState ≠ Phase.playing → tick t = t := by
    intro t ht
    unfold tick
    rw [if_neg (by tauto)]
  refine ⟨?_, ?_, ?_, ?_, ?_, hfix s⟩
  · intro hp hlt
    unfold tick timerEffect handleGameOver
    rw [if_pos ⟨hp, hlt⟩]
    split <;> rfl
  · intro hp hlt
    unfold tick timerEffect handleGameOver
    rw [if_pos ⟨hp, hlt⟩]
    constructor
    · intro h
      by_cases h1 : s.timeLeft - 1 = 0
      · omega
      · rw [if_neg (by simp [h1])] at h
        rw [hp] at h
        exact absurd h (by simp)
    · intro h
      rw [if_pos (by simp [h, hp])]
  · intro hp h1
    have hgo : (tick s).gameState = Phase.gameOver := by
      unfold tick timerEffect handleGameOver
      rw [if_pos ⟨hp, by omega⟩, if_pos (by simp [h1, hp])]
    exact ⟨hgo, hfix _ (by rw [hgo]; simp)⟩
  · unfold tick timerEffect handleGameOver
    split
    · split <;> simp
    · exact Nat.le_refl _
  · intro h0
    unfold tick
    rw [if_neg (by omega)]
    exact h0

/-- C7: `startGame` with an all-whitespace player name is rejected with a
validation signal and leaves the whole state unchanged; with a non-empty
trimmed name it enters the playing phase, resets moves and selection, sets
the clock to the size's limit (3 to 30s, 4 to 60s, 5 to 90s, 6 to 120s) and
builds fresh grids from the shuffle outcome. -/
theorem startGame_behavior (s : GameState) (shuffled : List Nat)
    (colors : List Color) :
    (jsTrim s.playerName = "" → startGame shuffled colors s = (s, true)) ∧
    (jsTrim s.playerName ≠ "" →
      (startGame shuffled colors s).2 = false ∧
      ((startGame shuffled colors s).1).gameState = Phase.playing ∧
      ((startGame shuffled colors s).1).moves = 0 ∧
      ((startGame shuffled colors s).1).selectedTile = none ∧
      (s.gridSize = 3 → ((startGame shuffled colors s).1).timeLeft = 30) ∧
      (s.gridSize = 4 → ((startGame shuffled colors s).1).timeLeft = 60) ∧
      (s.gridSize = 5 → ((startGame shuffled colors s).1).timeLeft = 90) ∧
      (s.gridSize = 6 → ((startGame shuffled colors s).1).timeLeft = 120) ∧
      ((startGame shuffled colors s).1).grid
        = buildShuffledGrid s.gridSize shuffled colors ∧
      ((startGame shuffled colors s).1).targetGrid
        = buildTargetGrid s.gridSize colors) := by
  constructor
  · intro h
    unfold startGame
    rw [if_pos h]
  · intro h
    unfold startGame
    rw [if_neg h]
    refine ⟨rfl, rfl, rfl, rfl, ?_, ?_, ?_, ?_, rfl, rfl⟩ <;>
      · intro hsz
        simp [hsz, getTimeLimit]

/-- Witness for C6 at a concrete playing state with one second left and at
the menu base state. -/
theorem tick_clock_behavior_witness :
    (tick { baseState with gameState := Phase.playing, timeLeft := 1 }).timeLeft
        = 0 ∧
    (tick { baseState with
        gameState := Phase.playing, timeLeft := 1 }).gameState
        = Phase.gameOver ∧
    tick (tick { baseState with gameState := Phase.playing, timeLeft := 1 })
        = tick { baseState with gameState := Phase.playing, timeLeft := 1 } ∧
    tick baseState = baseState := by
  have h := tick_clock_behavior
    { baseState with gameState := Phase.playing, timeLeft := 1 }
  have h2 := tick_clock_behavior baseState
  exact ⟨h.1 rfl (by decide), (h.2.2.1 rfl rfl).1, (h.2.2.1 rfl rfl).2,
    h2.2.2.2.2.2 (by decide)⟩

/-- Witness for C7: rejection at the base state (empty name) and
acceptance at a concrete named 3×3 menu state. -/
theorem startGame_behavior_witness :
    startGame [] [] baseState = (baseState, true) ∧
    ((startGame [2, 1, 3, 4] []
        { baseState with playerName := "Ava" }).1).gameState
      = Phase.playing ∧
    ((startGame [2, 1, 3, 4] []
        { baseState with playerName := "Ava" }).1).timeLeft = 30 := by
  have h1 := (startGame_behavior baseState [] []).1 (by decide)
  have h2 := (startGame_behavior { baseState with playerName := "Ava" }
    [2, 1, 3, 4] []).2 (by decide)
  exact ⟨h1, h2.2.1, h2.2.2.2.2.1 rfl⟩

/-- C1 (exhibit of the recorded score): in the end-to-end scenario the
winning tap moves the session to Won and records timeRemaining 29, the
clock at the moment of the win, but the recorded moves field is 0, the
closure value of `moves` before the `setMoves(moves + 1)` of the winning
swap, even though the session's move counter itself becomes 1. -/
theorem handleWin_records_stale_moves :
    (handleTilePress 0 1 c1State).gameState = Phase.won ∧
    (handleTilePress 0 1 c1State).moves = 1 ∧
    (handleTilePress 0 1 c1State).highScores "3x3"
      = [⟨"Ava", 0, 29⟩] := by
  refine ⟨rfl, rfl, ?_⟩
  decide

theorem qmod_add_int_mul (x n : ℚ) (k : ℤ) (hn : n ≠ 0) :
    qmod (x + n * (k : ℚ)) n = qmod x n := by
  unfold qmod
  have hdiv : (x + n * (k : ℚ)) / n = x / n + (k : ℚ) := by
    rw [add_div, mul_comm n (k : ℚ), mul_div_assoc, div_self hn, mul_one]
  rw [hdiv, Int.floor_add_int]
  push_cast
  ring

theorem qmod_eq_self {x n : ℚ} (h0 : 0 ≤ x) (h1 : x < n) : qmod x n = x := by
  have hn : 0 < n := lt_of_le_of_lt h0 h1
  unfold qmod
  have hfloor : ⌊x / n⌋ = 0 := by
    rw [Int.floor_eq_zero_iff, Set.mem_Ico]
    exact ⟨div_nonneg h0 (le_of_lt hn), by rw [div_lt_one hn]; exact h1⟩
  rw [hfloor]
  simp

theorem qmod_sub_qmod (a b n : ℚ) (hn : n ≠ 0) :
    qmod (qmod a n - qmod b n) n = qmod (a - b) n := by
  have h : qmod a n - qmod b n
      = (a - b) + n * ((⌊b / n⌋ - ⌊a / n⌋ : ℤ) : ℚ) := by
    unfold qmod
    push_cast
    ring
  rw [h, qmod_add_int_mul _ _ _ hn]

theorem qmod_shift_upOffset {x j : ℚ} (hj0 : 0 ≤ j) (hj1 : j < 30) :
    qmod (qmod (x + j) 360 - qmod x 360) 360 = j := by
  rw [qmod_sub_qmod _ _ _ (by norm_num : (360 : ℚ) ≠ 0),
    show x + j - x = j from by ring, qmod_eq_self hj0 (by linarith)]

/-- C9 counterexample: with count 1 and the legitimate random draw 2/3
(inside [0,1)), the generated hue is 20°, more than 15° away on the color
wheel from the nominal hue 0 = 0 * (360 / 1): the jitter added by the code
is `Math.random() * 30`, not confined to ±15°. -/
theorem hue_jitter_beyond_claim :
    (0 ≤ (2 / 3 : ℚ) ∧ (2 / 3 : ℚ) < 1) ∧
    15 < circDist
        ((preShuffleColors 1 [(2 / 3, 0, 0)]).getD 0 defaultColor).hue
        ((0 : ℚ) * (360 / (1 : ℚ))) := by
  constructor
  · constructor <;> norm_num
  · have hcolor : (preShuffleColors 1 [(2 / 3, 0, 0)]).getD 0 defaultColor
        = mkColor 1 0 (2 / 3, 0, 0) := by
      unfold preShuffleColors
      rfl
    rw [hcolor]
    unfold mkColor circDist qmod
    norm_num

/-- C9 (amended): the color generator yields exactly `count` colors, and
before the final random permutation the i-th color's hue lies within +30°
strictly above `i * (360 / count)` on the color wheel: the upward circular
offset (`qmod (hue - nominal) 360`, the degrees travelled counterclockwise
from the nominal hue `i * (360 / count) mod 360` to the generated hue)
lies in `[0, 30)` — the jitter is `[0, 30)` above nominal, never below,
so the claimed ±15° band is wrong in both width and placement — with
saturation in [70, 100) and lightness in [45, 65). -/
theorem generateDistinctColors_ranges {count : Nat}
    (rands : List (ℚ × ℚ × ℚ)) (_hcount : 0 < count)
    (hlen : rands.length = count)
    (hr : ∀ r ∈ rands, (0 ≤ r.1 ∧ r.1 < 1) ∧ (0 ≤ r.2.1 ∧ r.2.1 < 1) ∧
      (0 ≤ r.2.2 ∧ r.2.2 < 1)) :
    (∀ out : List Color, out.Perm (preShuffleColors count rands) →
      out.length = count) ∧
    ∀ i < count,
      0 ≤ qmod (((preShuffleColors count rands).getD i defaultColor).hue
            - qmod ((i : ℚ) * (360 / (count : ℚ))) 360) 360 ∧
      qmod (((preShuffleColors count rands).getD i defaultColor).hue
            - qmod ((i : ℚ) * (360 / (count : ℚ))) 360) 360 < 30 ∧
      70 ≤ ((preShuffleColors count rands).getD i defaultColor).saturation ∧
      ((preShuffleColors count rands).getD i defaultColor).saturation < 100 ∧
      45 ≤ ((preShuffleColors count rands).getD i defaultColor).lightness ∧
      ((preShuffleColors count rands).getD i defaultColor).lightness < 65 := by
  constructor
  · intro out hout
    rw [hout.length_eq]
    simp [preShuffleColors]
  · intro i hi
    have hcell : (preShuffleColors count rands).getD i defaultColor
        = mkColor count i (rands.getD i (0, 0, 0)) := by
      unfold preShuffleColors
      exact getD_map_range _ hi _
    have hmem : rands.getD i (0, 0, 0) ∈ rands := by
      have hil : i < rands.length := by omega
      rw [List.getD_eq_getElem _ _ hil]
      exact List.getElem_mem hil
    obtain ⟨⟨hr1a, hr1b⟩, ⟨hr2a, hr2b⟩, ⟨hr3a, hr3b⟩⟩ :=
      hr (rands.getD i (0, 0, 0)) hmem
    have hub := qmod_shift_upOffset
      (x := (i : ℚ) * (360 / (count : ℚ)))
      (j := (rands.getD i (0, 0, 0)).1 * 30)
      (by linarith) (by linarith)
    rw [hcell]
    unfold mkColor
    refine ⟨?_, ?_, ?_, ?_, ?_, ?_⟩
    · simp only
      rw [hub]
      linarith
    · simp only
      rw [hub]
      linarith
    · simp only
      linarith
    · simp only
      linarith
    · simp only
      linarith
    · simp only
      linarith

/-- Witness for C9 (amended) at count 1 with the zero random draw. -/
theorem generateDistinctColors_ranges_witness :
    (∀ out : List Color, out.Perm (preShuffleColors 1 [(0, 0, 0)]) →
      out.length = 1) ∧
    ∀ i < 1,
      0 ≤ qmod (((preShuffleColors 1 [(0, 0, 0)]).getD i defaultColor).hue
            - qmod ((i : ℚ) * (360 / (1 : ℚ))) 360) 360 ∧
      qmod (((preShuffleColors 1 [(0, 0, 0)]).getD i defaultColor).hue
            - qmod ((i : ℚ) * (360 / (1 : ℚ))) 360) 360 < 30 ∧
      70 ≤ ((preShuffleColors 1 [(0, 0, 0)]).getD i defaultColor).saturation ∧
      ((preShuffleColors 1 [(0, 0, 0)]).getD i defaultColor).saturation < 100 ∧
      45 ≤ ((preShuffleColors 1 [(0, 0, 0)]).getD i defaultColor).lightness ∧
      ((preShuffleColors 1 [(0, 0, 0)]).getD i defaultColor).lightness < 65 :=
  generateDistinctColors_ranges [(0, 0, 0)] (by norm_num) (by norm_num)
    (by intro r hm; simp at hm; subst hm; norm_num)

theorem swapCells_swapCells {g : Grid} {n : Nat} (hd : dims g n)
    {row col selRow selCol : Nat} (h1 : row < n) (h2 : col < n)
    (h3 : selRow < n) (h4 : selCol < n) (hne : row ≠ selRow ∨ col ≠ selCol) :
    swapCells (swapCells g row col selRow selCol) row col selRow selCol
      = g := by
  have hd1 := dims_swapCells hd row col selRow selCol
  apply grid_ext (dims_swapCells hd1 row col selRow selCol) hd
  intro i hi j hj
  by_cases hc1 : i = row ∧ j = col
  · obtain ⟨rfl, rfl⟩ := hc1
    rw [getCell_swapCells_fst hd1 h1 h2 hne, getCell_swapCells_snd hd h3 h4]
  · by_cases hc2 : i = selRow ∧ j = selCol
    · obtain ⟨rfl, rfl⟩ := hc2
      rw [getCell_swapCells_snd hd1 h3 h4, getCell_swapCells_fst hd h1 h2 hne]
    · have hx1 : i ≠ row ∨ j ≠ col := by tauto
      have hx2 : i ≠ selRow ∨ j ≠ selCol := by tauto
      rw [getCell_swapCells_other hx1 hx2, getCell_swapCells_other hx1 hx2]

/-- C10 (amended): in the playing phase with no active selection,
selecting a cell and tapping a distinct orthogonally adjacent cell twice
in a row restores the grid and adds exactly 2 to the move counter —
provided the first swap does not produce the solved order (a winning
first swap moves the session to Won, where the second pair of taps is
ignored). -/
theorem double_swap_restores (s : GameState) (r1 c1 r2 c2 : Nat)
    (hphase : s.gameState = Phase.playing) (hsel : s.selectedTile = none)
    (hd : dims s.grid s.gridSize)
    (h1 : r1 < s.gridSize) (h2 : c1 < s.gridSize)
    (h3 : r2 < s.gridSize) (h4 : c2 < s.gridSize)
    (hne : ¬(r2 = r1 ∧ c2 = c1))
    (hadj : isAdjacent r2 c2 r1 c1 = true)
    (hnowin : checkWin s.gridSize (swapCells s.grid r2 c2 r1 c1) = false) :
    (handleTilePress r2 c2 (handleTilePress r1 c1 (handleTilePress r2 c2
        (handleTilePress r1 c1 s)))).grid = s.grid ∧
    (handleTilePress r2 c2 (handleTilePress r1 c1 (handleTilePress r2 c2
        (handleTilePress r1 c1 s)))).moves = s.moves + 2 := by
  have hne2 : r2 ≠ r1 ∨ c2 ≠ c1 := by tauto
  have hswap := swapCells_swapCells hd h3 h4 h1 h2 hne2
  have e1 : handleTilePress r1 c1 s = { s with selectedTile := some (r1, c1) } := by
    simp only [handleTilePress, hphase, hsel]
    simp
  have e2 : handleTilePress r2 c2 { s with selectedTile := some (r1, c1) }
      = { s with grid := swapCells s.grid r2 c2 r1 c1,
                 moves := s.moves + 1, selectedTile := none } := by
    simp only [handleTilePress, hphase, ne_eq]
    simp [hne, hadj, hnowin]
  have e3 : handleTilePress r1 c1
      { s with grid := swapCells s.grid r2 c2 r1 c1,
               moves := s.moves + 1, selectedTile := none }
      = { s with grid := swapCells s.grid r2 c2 r1 c1,
                 moves := s.moves + 1, selectedTile := some (r1, c1) } := by
    simp only [handleTilePress, hphase]
    simp
  rw [e1, e2, e3]
  constructor <;>
    · simp only [handleTilePress, hphase, ne_eq]
      simp [hne, hadj, hswap]
      split <;> rfl

/-- C10 counterexample: at the concrete playing-phase state whose grid is
one adjacent swap from solved, the pair (0,0)–(0,1) is distinct and
orthogonally adjacent, yet select-swap-select-swap does not restore the
grid and adds only 1 move: the first swap wins the game and the session
leaves the playing phase, so the second pair of taps is ignored. -/
theorem double_swap_not_involution :
    c10State.gameState = Phase.playing ∧
    c10State.selectedTile = none ∧
    isAdjacent 0 1 0 0 = true ∧
    ¬(0 = 0 ∧ 1 = 0) ∧
    ¬((handleTilePress 0 1 (handleTilePress 0 0 (handleTilePress 0 1
        (handleTilePress 0 0 c10State)))).grid = c10State.grid ∧
      (handleTilePress 0 1 (handleTilePress 0 0 (handleTilePress 0 1
        (handleTilePress 0 0 c10State)))).moves = c10State.moves + 2) := by
  refine ⟨rfl, rfl, rfl, by decide, ?_⟩
  intro hcontra
  have hm := hcontra.2
  revert hm
  decide

/-- Witness for C10 (amended) at a concrete non-winning adjacent pair. -/
theorem double_swap_restores_witness :
    (handleTilePress 2 0 (handleTilePress 1 0 (handleTilePress 2 0
        (handleTilePress 1 0 c10State)))).grid = c10State.grid ∧
    (handleTilePress 2 0 (handleTilePress 1 0 (handleTilePress 2 0
        (handleTilePress 1 0 c10State)))).moves = c10State.moves + 2 :=
  double_swap_restores c10State 1 0 2 0 rfl rfl ⟨rfl, by decide⟩
    (by decide) (by decide) (by decide) (by decide) (by decide) (by decide)
    (by decide)

end GridZen
